import Mathlib

/-!
Shallow embedding of `src/package/anacostia/cli.py` (the anacostia reloader CLI).

The embedding models:
  * the filesystem snapshot machinery (`_iter_python_files`, `_snapshot_mtimes`),
    with each file's `stat` outcome made explicit (`none` models an OSError);
  * the entrypoint resolver inside `_run_app` (split on the first `:`,
    `importlib.import_module`, `getattr`, `callable` check) with Python
    exceptions as an explicit error type; the four `SystemExit` raise sites
    are the four classified resolution failures;
  * `_resolve_app_directory` (the `sys.path.insert` side effect, the raw
    un-handled import, `inspect.getfile`);
  * the supervisor loop `_run_with_reloader` as a deterministic function of
    an observation trace: each polling iteration supplies the `proc.poll()`
    result, whether a KeyboardInterrupt arrives during the sleep, the fresh
    snapshot, and whether `proc.wait(timeout=5)` returns within the grace
    period; the function emits the process-management actions the code
    performs, in order;
  * `main`'s role dispatch on the child environment marker and the
    `--reload` / `--no-reload` flags.
-/

namespace Anacostia

/-- Decidable equality for `Except`, needed to evaluate resolver results. -/
instance {ε α : Type} [DecidableEq ε] [DecidableEq α] : DecidableEq (Except ε α) := fun x y =>
  match x, y with
  | .ok a, .ok b =>
    if h : a = b then .isTrue (by rw [h]) else .isFalse (by intro hh; cases hh; exact h rfl)
  | .error a, .error b =>
    if h : a = b then .isTrue (by rw [h]) else .isFalse (by intro hh; cases hh; exact h rfl)
  | .ok _, .error _ => .isFalse (by intro hh; cases hh)
  | .error _, .ok _ => .isFalse (by intro hh; cases hh)

/-! ### Filesystem and snapshot model -/

/-- A file on disk, as the watcher sees it: its path and the result of
`path.stat().st_mtime` (`none` models an OSError raised by `stat`). -/
structure FSEntry where
  path : String
  statResult : Option Int
deriving DecidableEq, Repr

abbrev FS := List FSEntry

/-- The `rglob("*.py")` match predicate: the file name ends in `.py`
(checked on the reversed character list, for kernel reducibility). -/
def isPyFile (p : String) : Bool :=
  match p.data.reverse with
  | 'y' :: 'p' :: '.' :: _ => true
  | _ => false

/-- `_iter_python_files`: all `.py` files under the root. -/
def iterPythonFiles (fs : FS) : List FSEntry :=
  fs.filter (fun e => isPyFile e.path)

/-- The dict comprehension `{path: path.stat().st_mtime for path in ...}`:
stat each file in order; an error from any single `stat` propagates and
aborts the whole comprehension (there is no try/except in the source). -/
def statAll : List FSEntry → Option (List (String × Int))
  | [] => some []
  | e :: es =>
    match e.statResult with
    | none => none
    | some t => (statAll es).map (fun s => (e.path, t) :: s)

/-- `_snapshot_mtimes`: mapping file → mtime for all `.py` files. -/
def snapshot_mtimes (fs : FS) : Option (List (String × Int)) :=
  statAll (iterPythonFiles fs)

/-- Dictionary key lookup (first binding wins, as in an assoc list). -/
def lookup (k : String) : List (String × Int) → Option Int
  | [] => none
  | kv :: rest => if kv.1 = k then some kv.2 else lookup k rest

/-- Python dict equality `==`: same key set, same values, order irrelevant. -/
def dictEq (a b : List (String × Int)) : Bool :=
  (a.all fun kv => lookup kv.1 b == some kv.2) &&
  (b.all fun kv => lookup kv.1 a == some kv.2)

/-- Set the mtime of the entry at path `p` (a successful `touch`). -/
def touchEntry (p : String) (t : Int) (e : FSEntry) : FSEntry :=
  if e.path = p then { e with statResult := some t } else e

/-- Modify the last-modified timestamp of the file at path `p` to `t`. -/
def touch (fs : FS) (p : String) (t : Int) : FS :=
  fs.map (touchEntry p t)

/-! ### Entrypoint resolver model (`_run_app`, `_resolve_app_directory`) -/

/-- A loaded Python module: its attributes (name ↦ whether the attribute is
callable) and its `__file__` location (`none` for a module with no file,
where `inspect.getfile` raises). -/
structure PyModule where
  attrs : List (String × Bool)
  file : Option String
deriving DecidableEq, Repr

/-- The importable-module environment the interpreter runs in. -/
structure Env where
  modules : List (String × PyModule)
deriving DecidableEq, Repr

/-- The four classified resolution failures: each corresponds to one
`raise SystemExit(...)` site in `_run_app`, carrying the data interpolated
into that site's message. -/
inductive ResolutionFailure where
  | invalidLocatorFormat (offending expectedPattern : String)
  | unitNotFound (moduleName : String)
  | attributeNotFound (moduleName attrName locator : String)
  | notInvocable (moduleName attrName locator : String)
deriving DecidableEq, Repr

/-- A Python exception escaping the resolver: either a classified
`SystemExit`, or a raw uncaught exception. -/
inductive PyError where
  | systemExit (f : ResolutionFailure)
  | valueError (msg : String)
  | importError (moduleName : String)
  | typeError (msg : String)
deriving DecidableEq, Repr

def lookupModule (env : Env) (name : String) : Option PyModule :=
  (env.modules.find? (fun kv => kv.1 == name)).map (·.2)

/-- `importlib.import_module name`: the empty module name raises
`ValueError` (CPython stdlib behaviour, notably not an `ImportError`);
an unknown module raises `ImportError`. -/
def importModule (env : Env) (name : String) : Except PyError PyModule :=
  if name = "" then .error (.valueError "Empty module name")
  else
    match lookupModule env name with
    | some m => .ok m
    | none => .error (.importError name)

/-- `getattr(module, name)` together with the `callable` test:
`some c` means the attribute exists and `c` tells whether it is callable. -/
def lookupAttr (m : PyModule) (name : String) : Option Bool :=
  (m.attrs.find? (fun kv => kv.1 == name)).map (·.2)

/-- Scan for the first `:`, accumulating the (reversed) head part. -/
def splitLocatorAux (acc : List Char) : List Char → Option (String × String)
  | [] => none
  | c :: cs => if c = ':' then some (⟨acc.reverse⟩, ⟨cs⟩) else splitLocatorAux (c :: acc) cs

/-- `s.split(":", 1)` unpacked into two names: `none` models the
`ValueError` when the separator is absent; otherwise the string is split
at the first `:`. -/
def splitLocator (s : String) : Option (String × String) :=
  splitLocatorAux [] s.data

/-- The zero-argument invocable `_run_app` ends up calling. -/
structure Invocable where
  moduleName : String
  attrName : String
deriving DecidableEq, Repr

/-- The resolution phase of `_run_app`: split the locator, import the
module (`except ImportError` → `SystemExit`; any other exception
propagates), look up the attribute (`except AttributeError` →
`SystemExit`), check callability. -/
def resolveApp (env : Env) (app_path : String) : Except PyError Invocable :=
  match splitLocator app_path with
  | none => .error (.systemExit (.invalidLocatorFormat app_path "module:attr"))
  | some (module_name, attr_name) =>
    match importModule env module_name with
    | .error (.importError n) => .error (.systemExit (.unitNotFound n))
    | .error e => .error e
    | .ok m =>
      match lookupAttr m attr_name with
      | none => .error (.systemExit (.attributeNotFound module_name attr_name app_path))
      | some c =>
        if c then .ok ⟨module_name, attr_name⟩
        else .error (.systemExit (.notInvocable module_name attr_name app_path))

/-- `Path(module_file).resolve().parent` on an absolute path: drop the last
`/`-separated component. -/
def parentDir (p : String) : String :=
  ⟨((p.data.reverse.dropWhile (fun c => c ≠ '/')).drop 1).reverse⟩

/-- The process-wide interpreter state `_resolve_app_directory` mutates. -/
structure SysState where
  sysPath : List String
deriving DecidableEq, Repr

/-- `_resolve_app_directory`: prepend the cwd to `sys.path` when the cwd
passes the `is_dir()` check; split the locator (an unpack failure raises a
raw `ValueError`); import the module with NO exception handling (a raw
`ImportError` propagates); `inspect.getfile` raises a raw `TypeError` for
a module with no file; otherwise return the file's parent directory. -/
def resolveAppDirectory (env : Env) (cwd : String) (cwdIsDir : Bool)
    (st : SysState) (app_path : String) : SysState × Except PyError String :=
  let st' : SysState := if cwdIsDir then ⟨cwd :: st.sysPath⟩ else st
  match splitLocator app_path with
  | none => (st', .error (.valueError "not enough values to unpack (expected 2, got 1)"))
  | some (module_name, _) =>
    match importModule env module_name with
    | .error e => (st', .error e)
    | .ok m =>
      match m.file with
      | none => (st', .error (.typeError "module does not have a file"))
      | some f => (st', .ok (parentDir f))

/-- Does a resolution outcome fail with the `InvalidLocatorFormat` kind? -/
def isInvalidLocatorError : Except PyError Invocable → Bool
  | .error (.systemExit (.invalidLocatorFormat _ _)) => true
  | _ => false

/-- Is an escaping error classified as the `UnitNotFound` kind? -/
def isUnitNotFoundError : PyError → Bool
  | .systemExit (.unitNotFound _) => true
  | _ => false

/-- Modelled from the spec: the spec's well-formedness condition on a
locator, "must split into exactly two non-empty parts on the first
separator". Used only to state the spec's claim, for comparison with what
`resolveApp` actually enforces. -/
def locatorWellFormedSpec (s : String) : Bool :=
  match splitLocator s with
  | some (u, a) => (u != "") && (a != "")
  | none => false

/-! ### Supervisor loop model (`_run_with_reloader`, `main`) -/

/-- One polling iteration's worth of external observations: the
`proc.poll()` result at the top of the iteration, whether a
KeyboardInterrupt is delivered during the `time.sleep(1.0)`, the fresh
`_snapshot_mtimes` value, and whether `proc.wait(timeout=5)` returns
within the grace period should this iteration terminate the child. -/
structure Obs where
  poll : Option Int
  interrupt : Bool
  snap : List (String × Int)
  gracefulExit : Bool
deriving DecidableEq, Repr

/-- The process-management actions the supervisor performs, in order. -/
inductive Action where
  | spawn
  | terminate
  | waitGraceOk
  | waitGraceTimeout
  | kill
deriving DecidableEq, Repr

/-- `proc.terminate(); try: proc.wait(timeout=5) except TimeoutExpired:
proc.kill()` — the shared graceful-then-forced termination sequence.
Note the force-kill path issues `kill` with no subsequent wait. -/
def terminateSeq (graceful : Bool) : List Action :=
  if graceful then [.terminate, .waitGraceOk]
  else [.terminate, .waitGraceTimeout, .kill]

/-- How one pass of the inner `while True` polling loop ends. -/
inductive InnerResult where
  | childExited (code : Int)
  | interrupted
  | changed (newSnap : List (String × Int))
  | running
deriving DecidableEq, Repr

/-- The inner polling loop of `_run_with_reloader`, one child generation:
poll (exit → return the code); sleep (a KeyboardInterrupt here triggers
the termination sequence); take a fresh snapshot and compare to the
baseline (unequal → termination sequence, then break to restart).
Returns the actions performed plus how the pass ended; an exhausted
observation stream means the loop is still running. -/
def innerLoop (baseline : List (String × Int)) : List Obs → List Action × InnerResult
  | [] => ([], .running)
  | o :: rest =>
    match o.poll with
    | some code => ([], .childExited code)
    | none =>
      if o.interrupt then (terminateSeq o.gracefulExit, .interrupted)
      else if dictEq o.snap baseline then innerLoop baseline rest
      else (terminateSeq o.gracefulExit, .changed o.snap)

/-- The outer `while True` of `_run_with_reloader`: spawn a child, run the
inner loop; a child exit returns that exit code; a KeyboardInterrupt
returns 0; a detected change replaces the baseline with the fresh
snapshot and loops to spawn again. Result: the full ordered action list
and the reloader's return value (`none` while still running). -/
def runWithReloader (baseline : List (String × Int)) :
    List (List Obs) → List Action × Option Int
  | [] => ([Action.spawn], none)
  | g :: rest =>
    match innerLoop baseline g with
    | (as, .childExited n) => (Action.spawn :: as, some n)
    | (as, .interrupted) => (Action.spawn :: as, some 0)
    | (as, .changed s) =>
      let r := runWithReloader s rest
      (Action.spawn :: as ++ r.1, r.2)
    | (as, .running) => (Action.spawn :: as, none)

/-- The parsed CLI flags (argparse gives `--app` the default `None`). -/
structure Args where
  reload : Bool
  no_reload : Bool
  app : Option String
deriving DecidableEq, Repr

/-- What `main` does after parsing: run the app directly in the current
process, or supervise via the reloader and `sys.exit` its return value. -/
inductive MainOutcome where
  | ranInProcess (app : Option String)
  | supervised (acts : List Action) (exitCode : Option Int)
deriving DecidableEq, Repr

/-- `main`: the child environment marker wins first (run the app once);
otherwise `if args.reload and not args.no_reload` run the reloader and
exit with its code, else run the app once in this process. -/
def mainModel (childMarker : Bool) (args : Args) (baseline : List (String × Int))
    (trace : List (List Obs)) : MainOutcome :=
  if childMarker then .ranInProcess args.app
  else if args.reload && !args.no_reload then
    let r := runWithReloader baseline trace
    .supervised r.1 r.2
  else .ranInProcess args.app

/-- Scan an action list checking every spawn after the first is preceded,
since the previous spawn, by an observed child termination
(`waitGraceOk`); the accumulator says whether the previous child has been
reaped. -/
def reapScan : List Action → Bool → Bool
  | [], _ => true
  | Action.spawn :: rest, reaped => reaped && reapScan rest false
  | Action.waitGraceOk :: rest, _ => reapScan rest true
  | Action.terminate :: rest, r => reapScan rest r
  | Action.waitGraceTimeout :: rest, r => reapScan rest r
  | Action.kill :: rest, r => reapScan rest r

/-- Every respawn is preceded by an observed termination of the old child. -/
def reapedBeforeEachRespawn (acts : List Action) : Bool := reapScan acts true

/-- Scan checking every spawn after the first is preceded, since the
previous spawn, by a `terminate` request to the old child. -/
def termScan : List Action → Bool → Bool
  | [], _ => true
  | Action.spawn :: rest, t => t && termScan rest false
  | Action.terminate :: rest, _ => termScan rest true
  | Action.waitGraceOk :: rest, t => termScan rest t
  | Action.waitGraceTimeout :: rest, t => termScan rest t
  | Action.kill :: rest, t => termScan rest t

/-- Every respawn is preceded by a terminate request to the old child. -/
def terminatedBeforeEachRespawn (acts : List Action) : Bool := termScan acts true

/-! ### Concrete instances used by counterexamples and witnesses -/

/-- A module exposing a callable `run`, loaded from `/repo/m.py`. -/
def modM : PyModule := ⟨[("run", true)], some "/repo/m.py"⟩

/-- An environment with one module `m` exposing a callable `run`. -/
def envM : Env := ⟨[("m", modM)]⟩

/-- A module with a callable `run` but no discoverable file location. -/
def modNoFile : PyModule := ⟨[("run", true)], none⟩

/-- An environment whose module `nf` has no file location. -/
def envNoFile : Env := ⟨[("nf", modNoFile)]⟩

/-- The empty module environment: nothing is importable. -/
def envEmpty : Env := ⟨[]⟩

/-- A tree where `a.py` cannot be stat'd but `b.py` can. -/
def fsStatFail : FS := [⟨"/r/a.py", none⟩, ⟨"/r/b.py", some 3⟩]

/-- A healthy two-file tree: one watched file, one non-watched file. -/
def fsTwo : FS := [⟨"/r/a.py", some 1⟩, ⟨"/r/b.txt", some 5⟩]

/-- An iteration observing a change, with the grace wait timing out. -/
def obsChangeHard : Obs := ⟨none, false, [("/r/a.py", 7)], false⟩

/-- An iteration observing a change, with the child exiting gracefully. -/
def obsChangeSoft : Obs := ⟨none, false, [("/r/a.py", 9)], true⟩

/-- An iteration in which the child has exited with code 3. -/
def obsExit3 : Obs := ⟨some 3, false, [], false⟩

/-- An iteration interrupted during the sleep, graceful child stop. -/
def obsInterrupt : Obs := ⟨none, true, [], true⟩

/-! ### Resolver lemmas -/

/-- `importlib.import_module` either loads a module, raises the
empty-name `ValueError`, or raises `ImportError`. -/
theorem importModule_cases (env : Env) (name : String) :
    (∃ m, importModule env name = .ok m) ∨
    importModule env name = .error (.valueError "Empty module name") ∨
    (∃ n, importModule env name = .error (.importError n)) := by
  unfold importModule
  by_cases h : name = ""
  · right; left; simp [h]
  · cases hm : lookupModule env name with
    | none => right; right; exact ⟨name, by simp [h, hm]⟩
    | some m => left; exact ⟨m, by simp [h, hm]⟩

/-- Claim C1, counterexample: the locator `"m:"` violates the spec's
well-formedness condition (its attribute part is empty), yet the resolver
does not fail with `InvalidLocatorFormat`: the split succeeds and the
failure surfaces later as `AttributeNotFound`. -/
theorem c1_invalid_locator_counterexample :
    locatorWellFormedSpec "m:" = false ∧
    resolveApp envM "m:" = .error (.systemExit (.attributeNotFound "m" "" "m:")) ∧
    isInvalidLocatorError (resolveApp envM "m:") = false := by decide

/-- Claim C1, amended: `resolve` fails with `InvalidLocatorFormat`
(carrying the offending string and the expected pattern) exactly for
locators with no separator; a locator that does split (even into empty
parts) never produces `InvalidLocatorFormat`, failing at a later
resolution step instead; and for every locator whose unit imports and
whose attribute is callable, `resolve` returns that invocable. -/
theorem c1_invalid_locator_amended (env : Env) (s : String) :
    ((splitLocator s = none →
        resolveApp env s = .error (.systemExit (.invalidLocatorFormat s "module:attr"))) ∧
      (∀ u a, splitLocator s = some (u, a) →
        isInvalidLocatorError (resolveApp env s) = false)) ∧
    (∀ u a m, splitLocator s = some (u, a) → importModule env u = .ok m →
        lookupAttr m a = some true → resolveApp env s = .ok ⟨u, a⟩) := by
  refine ⟨⟨fun h => by simp [resolveApp, h], fun u a h => ?_⟩, fun u a m h1 h2 h3 => ?_⟩
  · rcases importModule_cases env u with ⟨m, hm⟩ | hv | ⟨n, hn⟩
    · cases hattr : lookupAttr m a with
      | none => simp [resolveApp, h, hm, hattr, isInvalidLocatorError]
      | some c => cases c <;> simp [resolveApp, h, hm, hattr, isInvalidLocatorError]
    · simp [resolveApp, h, hv, isInvalidLocatorError]
    · simp [resolveApp, h, hn, isInvalidLocatorError]
  · simp [resolveApp, h1, h2, h3]

/-- Claim C1, amended, witness: a separator-free locator gives
`InvalidLocatorFormat`; the empty-attribute locator `"m:"` does not; the
well-formed locator `"m:run"` resolves to the invocable. -/
theorem c1_invalid_locator_amended_witness :
    resolveApp envM "nope" =
      .error (.systemExit (.invalidLocatorFormat "nope" "module:attr")) ∧
    isInvalidLocatorError (resolveApp envM "m:") = false ∧
    resolveApp envM "m:run" = .ok ⟨"m", "run"⟩ :=
  ⟨(c1_invalid_locator_amended envM "nope").1.1 (by decide),
   (c1_invalid_locator_amended envM "m:").1.2 "m" "" (by decide),
   (c1_invalid_locator_amended envM "m:run").2 "m" "run" modM (by decide) (by decide)
     (by decide)⟩

/-! ### Snapshot lemmas -/

/-- If any listed file's `stat` fails, the whole comprehension aborts. -/
theorem statAll_none_of_mem (l : List FSEntry) (e : FSEntry)
    (he : e ∈ l) (hn : e.statResult = none) : statAll l = none := by
  induction l with
  | nil => cases he
  | cons a l ih =>
    rcases List.mem_cons.mp he with rfl | hmem
    · simp [statAll, hn]
    · cases ha : a.statResult <;> simp [statAll, ha, ih hmem]

/-- A successful comprehension lists exactly the input files' paths as
keys, in order. -/
theorem statAll_keys (l : List FSEntry) :
    ∀ s, statAll l = some s → s.map Prod.fst = l.map FSEntry.path := by
  induction l with
  | nil => intro s h; simp [statAll] at h; simp [← h]
  | cons a l ih =>
    intro s h
    cases ha : a.statResult with
    | none => simp [statAll, ha] at h
    | some t =>
      simp only [statAll, ha, Option.map_eq_some'] at h
      obtain ⟨s', hs', rfl⟩ := h
      simp [ih s' hs']

/-- Every input file appears in a successful comprehension with its
recorded mtime. -/
theorem statAll_mem (l : List FSEntry) (s : List (String × Int))
    (h : statAll l = some s) (e : FSEntry) (he : e ∈ l) :
    ∃ t0, e.statResult = some t0 ∧ (e.path, t0) ∈ s := by
  induction l generalizing s with
  | nil => cases he
  | cons a l ih =>
    cases ha : a.statResult with
    | none => simp [statAll, ha] at h
    | some t =>
      simp only [statAll, ha, Option.map_eq_some'] at h
      obtain ⟨s', hs', rfl⟩ := h
      rcases List.mem_cons.mp he with rfl | hmem
      · exact ⟨t, ha, List.mem_cons_self _ _⟩
      · obtain ⟨t0, h1, h2⟩ := ih s' hs' hmem
        exact ⟨t0, h1, List.mem_cons_of_mem _ h2⟩

/-- Assoc-list lookup finds the unique binding when keys are distinct. -/
theorem lookup_eq_of_mem_nodup (s : List (String × Int))
    (hnd : (s.map Prod.fst).Nodup) (k : String) (v : Int)
    (hm : (k, v) ∈ s) : lookup k s = some v := by
  induction s with
  | nil => cases hm
  | cons kv rest ih =>
    rw [List.map_cons, List.nodup_cons] at hnd
    rcases List.mem_cons.mp hm with rfl | hmem
    · simp [lookup]
    · have hk : kv.1 ≠ k := by
        intro hkk
        exact hnd.1 (hkk ▸ List.mem_map_of_mem Prod.fst hmem)
      simp [lookup, hk, ih hnd.2 hmem]

/-- Python dict equality is reflexive on duplicate-free key sets. -/
theorem dictEq_refl (s : List (String × Int))
    (hnd : (s.map Prod.fst).Nodup) : dictEq s s = true := by
  have hall : ∀ kv ∈ s, (lookup kv.1 s == some kv.2) = true := by
    intro kv hkv
    have := lookup_eq_of_mem_nodup s hnd kv.1 kv.2 hkv
    simp [this]
  simp only [dictEq, Bool.and_eq_true, List.all_eq_true]
  exact ⟨hall, hall⟩

/-- Touching never changes a file's path. -/
theorem touchEntry_path (p : String) (t : Int) (e : FSEntry) :
    (touchEntry p t e).path = e.path := by
  unfold touchEntry; split <;> rfl

/-- Touching preserves the tree's path list. -/
theorem touch_path_map (fs : FS) (p : String) (t : Int) :
    (touch fs p t).map FSEntry.path = fs.map FSEntry.path := by
  simp [touch, List.map_map, Function.comp, touchEntry_path]

/-- Touching a file whose name does not match the watched suffix leaves
the enumerated watched files untouched. -/
theorem iterPythonFiles_touch_not_py (fs : FS) (p : String) (t : Int)
    (hp : isPyFile p = false) :
    iterPythonFiles (touch fs p t) = iterPythonFiles fs := by
  induction fs with
  | nil => rfl
  | cons e l ih =>
    by_cases he : e.path = p
    · have h1 : isPyFile e.path = false := he ▸ hp
      have h2 : isPyFile (touchEntry p t e).path = false := by
        rw [touchEntry_path]; exact h1
      simp [touch, iterPythonFiles, List.filter_cons, h1, h2] at ih ⊢
      exact ih
    · have he2 : touchEntry p t e = e := by simp [touchEntry, he]
      simp [touch, iterPythonFiles, List.filter_cons, he2] at ih ⊢
      cases isPyFile e.path <;> simp [ih]

/-- A successful snapshot of a duplicate-free tree has duplicate-free keys. -/
theorem snapshot_keys_nodup (fs : FS) (s : List (String × Int))
    (hnd : (fs.map FSEntry.path).Nodup) (h : snapshot_mtimes fs = some s) :
    (s.map Prod.fst).Nodup := by
  rw [statAll_keys _ _ h]
  exact List.Nodup.sublist (List.Sublist.map _ (List.filter_sublist fs)) hnd

/-- Claim C4, counterexample: a tree in which the watched file
`/r/a.py` cannot be stat'd makes `_snapshot_mtimes` abort (return no
snapshot at all), instead of skipping that file and keeping `/r/b.py`. -/
theorem c4_snapshot_stat_counterexample :
    (∃ e ∈ fsStatFail, isPyFile e.path = true ∧ e.statResult = none) ∧
    snapshot_mtimes fsStatFail = none := by decide

/-- Claim C4, amended: the comprehension in `_snapshot_mtimes` has no
error handling, so a `stat` failure on any single watched file aborts the
whole snapshot; conversely a successful snapshot lists exactly the
watched files. -/
theorem c4_snapshot_stat_amended (fs : FS) :
    ((∃ e ∈ iterPythonFiles fs, e.statResult = none) → snapshot_mtimes fs = none) ∧
    (∀ s, snapshot_mtimes fs = some s →
      s.map Prod.fst = (iterPythonFiles fs).map FSEntry.path) := by
  constructor
  · rintro ⟨e, he, hn⟩
    exact statAll_none_of_mem _ e he hn
  · intro s h
    exact statAll_keys _ s h

/-- Claim C4, amended, witness: the failing tree aborts; the healthy tree
yields exactly its watched file as key. -/
theorem c4_snapshot_stat_amended_witness :
    snapshot_mtimes fsStatFail = none ∧
    [("/r/a.py", (1 : Int))].map Prod.fst = (iterPythonFiles fsTwo).map FSEntry.path :=
  ⟨(c4_snapshot_stat_amended fsStatFail).1 (by decide),
   (c4_snapshot_stat_amended fsTwo).2 [("/r/a.py", 1)] (by decide)⟩

/-- Claim C5, counterexample: resolving the directory of a locator whose
unit cannot be imported lets the raw `ImportError` escape; the failure is
not classified as the `UnitNotFound` kind ( `_resolve_app_directory` has
no exception handling, unlike `_run_app`). -/
theorem c5_resolve_directory_counterexample :
    (resolveAppDirectory envEmpty "/cwd" true ⟨[]⟩ "nosuch:run").2 =
      .error (.importError "nosuch") ∧
    isUnitNotFoundError (.importError "nosuch") = false := by decide

/-- Claim C5, amended: on success, `_resolve_app_directory` returns the
parent directory of the unit's source file; when the unit cannot be
imported the raw `ImportError` propagates, and when the unit has no file
location a raw `TypeError` propagates — neither failure is classified as
`UnitNotFound`. -/
theorem c5_resolve_directory_amended (env : Env) (cwd : String) (d : Bool)
    (st : SysState) (ap u a : String) (h : splitLocator ap = some (u, a)) :
    (∀ m f, importModule env u = .ok m → m.file = some f →
      (resolveAppDirectory env cwd d st ap).2 = .ok (parentDir f)) ∧
    (u ≠ "" → lookupModule env u = none →
      (resolveAppDirectory env cwd d st ap).2 = .error (.importError u) ∧
      isUnitNotFoundError (.importError u) = false) ∧
    (∀ m, importModule env u = .ok m → m.file = none →
      (resolveAppDirectory env cwd d st ap).2 =
        .error (.typeError "module does not have a file") ∧
      isUnitNotFoundError (.typeError "module does not have a file") = false) := by
  refine ⟨fun m f hm hf => ?_, fun hu hl => ⟨?_, rfl⟩, fun m hm hf => ⟨?_, rfl⟩⟩
  · simp [resolveAppDirectory, h, hm, hf]
  · simp [resolveAppDirectory, h, importModule, hu, hl]
  · simp [resolveAppDirectory, h, hm, hf]

/-- Claim C5, amended, witness: the three branches at concrete inputs. -/
theorem c5_resolve_directory_amended_witness :
    (resolveAppDirectory envM "/cwd" true ⟨[]⟩ "m:run").2 =
      .ok (parentDir "/repo/m.py") ∧
    ((resolveAppDirectory envEmpty "/cwd" true ⟨[]⟩ "x:run").2 =
        .error (.importError "x") ∧
      isUnitNotFoundError (.importError "x") = false) ∧
    ((resolveAppDirectory envNoFile "/cwd" true ⟨[]⟩ "nf:run").2 =
        .error (.typeError "module does not have a file") ∧
      isUnitNotFoundError (.typeError "module does not have a file") = false) :=
  ⟨(c5_resolve_directory_amended envM "/cwd" true ⟨[]⟩ "m:run" "m" "run" (by decide)).1
      modM "/repo/m.py" (by decide) (by decide),
   ((c5_resolve_directory_amended envEmpty "/cwd" true ⟨[]⟩ "x:run" "x" "run"
        (by decide)).2.1 (by decide) (by decide)),
   ((c5_resolve_directory_amended envNoFile "/cwd" true ⟨[]⟩ "nf:run" "nf" "run"
        (by decide)).2.2 modNoFile (by decide) (by decide))⟩

/-- Claim C9: with `--no-reload` present or `--reload` absent (in
particular when both flags are given), `main` spawns no child and runs no
watch loop — the entrypoint is run directly, once, in the current
process. -/
theorem c9_no_reload_direct_run (args : Args) (b : List (String × Int))
    (tr : List (List Obs)) (h : args.no_reload = true ∨ args.reload = false) :
    mainModel false args b tr = .ranInProcess args.app := by
  rcases h with h | h <;> simp [mainModel, h]

/-- Claim C9, witness: both flags given — `--no-reload` wins. -/
theorem c9_no_reload_direct_run_witness :
    mainModel false ⟨true, true, some "m:run"⟩ [] [] = .ranInProcess (some "m:run") :=
  c9_no_reload_direct_run ⟨true, true, some "m:run"⟩ [] [] (Or.inl rfl)

/-- Claim C10, counterexample: when the current working directory fails
the `is_dir()` check, `_resolve_app_directory` leaves `sys.path`
unchanged — the prepend does not happen on every call. -/
theorem c10_sys_path_counterexample :
    (resolveAppDirectory envM "/cwd" false ⟨["/lib"]⟩ "m:run").1 =
      SysState.mk ["/lib"] ∧
    (resolveAppDirectory envM "/cwd" false ⟨["/lib"]⟩ "m:run").1.sysPath ≠
      "/cwd" :: ["/lib"] := by decide

/-- Claim C10, amended: on every call in which the current working
directory passes the `is_dir()` check, `_resolve_app_directory` prepends
it at index 0 of the process-wide module search path — on every code
path, including all failure paths; otherwise `sys.path` is unchanged. -/
theorem c10_sys_path_amended (env : Env) (cwd : String) (d : Bool)
    (st : SysState) (ap : String) :
    (resolveAppDirectory env cwd d st ap).1 =
      (if d then SysState.mk (cwd :: st.sysPath) else st) := by
  unfold resolveAppDirectory
  split <;> (try split) <;> (try split) <;> (try split) <;> rfl

/-- Claim C3: over a duplicate-free watch root, modifying the
last-modified timestamp of a single watched (`.py`) file between two
snapshots makes the snapshots unequal under Python dict equality, while
modifying only a file with a non-watched extension leaves them equal. -/
theorem c3_snapshot_touch (fs : FS) (p : String) (t : Int)
    (s1 s2 : List (String × Int)) (hnd : (fs.map FSEntry.path).Nodup)
    (h1 : snapshot_mtimes fs = some s1)
    (h2 : snapshot_mtimes (touch fs p t) = some s2) :
    ((∃ e ∈ fs, e.path = p ∧ isPyFile p = true ∧ e.statResult ≠ some t) →
      dictEq s1 s2 = false) ∧
    (isPyFile p = false → dictEq s1 s2 = true) := by
  constructor
  · rintro ⟨e, he, hep, hw, hne⟩
    have hef : e ∈ iterPythonFiles fs :=
      List.mem_filter.mpr ⟨he, by rw [hep]; exact hw⟩
    obtain ⟨t0, ht0, hmem1⟩ := statAll_mem _ _ h1 e hef
    have htch : touchEntry p t e ∈ touch fs p t := List.mem_map_of_mem _ he
    have hstat : (touchEntry p t e).statResult = some t := by
      simp [touchEntry, hep]
    have htf : touchEntry p t e ∈ iterPythonFiles (touch fs p t) :=
      List.mem_filter.mpr ⟨htch, by rw [touchEntry_path, hep]; exact hw⟩
    obtain ⟨t1, ht1, hmem2⟩ := statAll_mem _ _ h2 _ htf
    rw [hstat] at ht1
    have ht1' : t1 = t := by injection ht1.symm
    rw [touchEntry_path, hep, ht1'] at hmem2
    have hnd2 : (s2.map Prod.fst).Nodup :=
      snapshot_keys_nodup (touch fs p t) s2 (by rw [touch_path_map]; exact hnd) h2
    have hlook2 : lookup p s2 = some t :=
      lookup_eq_of_mem_nodup s2 hnd2 p t hmem2
    cases hb : dictEq s1 s2 with
    | false => rfl
    | true =>
      exfalso
      rw [dictEq, Bool.and_eq_true, List.all_eq_true, List.all_eq_true] at hb
      have := hb.1 (e.path, t0) hmem1
      rw [beq_iff_eq, hep, hlook2] at this
      have ht0t : t0 = t := by injection this.symm
      exact hne (ht0t ▸ ht0)
  · intro hp
    unfold snapshot_mtimes at h1 h2
    rw [iterPythonFiles_touch_not_py fs p t hp, h1] at h2
    have hs : s1 = s2 := by injection h2
    rw [← hs]
    exact dictEq_refl s1 (snapshot_keys_nodup fs s1 hnd h1)

/-- Claim C3, witness: in the two-file tree, touching `/r/a.py` changes
the snapshot; touching `/r/b.txt` does not. -/
theorem c3_snapshot_touch_witness :
    dictEq [("/r/a.py", 1)] [("/r/a.py", 2)] = false ∧
    dictEq [("/r/a.py", 1)] [("/r/a.py", 1)] = true :=
  ⟨(c3_snapshot_touch fsTwo "/r/a.py" 2 [("/r/a.py", 1)] [("/r/a.py", 2)]
      (by decide) (by decide) (by decide)).1 (by decide),
   (c3_snapshot_touch fsTwo "/r/b.txt" 9 [("/r/a.py", 1)] [("/r/a.py", 1)]
      (by decide) (by decide) (by decide)).2 (by decide)⟩

/-! ### Supervisor loop lemmas -/

/-- Normal form of one inner-loop pass: it ends with a child exit (no
actions), an interrupt or a detected change (performing the termination
sequence of some observed iteration), or it is still running. -/
theorem innerLoop_cases (b : List (String × Int)) (g : List Obs) :
    (∃ n, innerLoop b g = ([], .childExited n)) ∨
    (∃ o ∈ g, innerLoop b g = (terminateSeq o.gracefulExit, .interrupted)) ∨
    (∃ o ∈ g, innerLoop b g = (terminateSeq o.gracefulExit, .changed o.snap)) ∨
    innerLoop b g = ([], .running) := by
  induction g with
  | nil => right; right; right; rfl
  | cons o rest ih =>
    cases hp : o.poll with
    | some code => left; exact ⟨code, by simp [innerLoop, hp]⟩
    | none =>
      cases hi : o.interrupt with
      | true =>
        right; left
        exact ⟨o, List.mem_cons_self _ _, by simp [innerLoop, hp, hi]⟩
      | false =>
        cases hd : dictEq o.snap b with
        | true =>
          have heq : innerLoop b (o :: rest) = innerLoop b rest := by
            simp [innerLoop, hp, hi, hd]
          rw [heq]
          rcases ih with h | ⟨o', ho', h⟩ | ⟨o', ho', h⟩ | h
          · left; exact h
          · right; left; exact ⟨o', List.mem_cons_of_mem _ ho', h⟩
          · right; right; left; exact ⟨o', List.mem_cons_of_mem _ ho', h⟩
          · right; right; right; exact h
        | false =>
          right; right; left
          exact ⟨o, List.mem_cons_self _ _, by simp [innerLoop, hp, hi, hd]⟩

/-- Every reloader action list starts with spawning a child. -/
theorem runWithReloader_head (b : List (String × Int)) (gens : List (List Obs)) :
    ∃ tl, (runWithReloader b gens).1 = Action.spawn :: tl := by
  cases gens with
  | nil => exact ⟨[], rfl⟩
  | cons g rest =>
    rcases innerLoop_cases b g with ⟨n, h⟩ | ⟨o, ho, h⟩ | ⟨o, ho, h⟩ | h
    · exact ⟨[], by simp [runWithReloader, h]⟩
    · exact ⟨terminateSeq o.gracefulExit, by simp [runWithReloader, h]⟩
    · exact ⟨terminateSeq o.gracefulExit ++ (runWithReloader o.snap rest).1,
        by simp [runWithReloader, h]⟩
    · exact ⟨[], by simp [runWithReloader, h]⟩

/-- Claim C2: if the child exits on its own with code `n` while in reload
mode, the reloader returns exactly `n`, after no actions beyond the one
spawn — no further restarts — and `main` exits with code `n`. -/
theorem c2_child_exit_propagates (b : List (String × Int)) (g : List Obs)
    (rest : List (List Obs)) (n : Int) (as : List Action) (app : Option String)
    (h : innerLoop b g = (as, .childExited n)) :
    runWithReloader b (g :: rest) = ([Action.spawn], some n) ∧
    mainModel false ⟨true, false, app⟩ b (g :: rest) =
      .supervised [Action.spawn] (some n) := by
  have has : innerLoop b g = ([], .childExited n) := by
    rcases innerLoop_cases b g with ⟨m, h'⟩ | ⟨o, ho, h'⟩ | ⟨o, ho, h'⟩ | h' <;>
      rw [h'] at h <;> cases h
    exact h' ▸ rfl
  have hr : runWithReloader b (g :: rest) = ([Action.spawn], some n) := by
    simp [runWithReloader, has]
  exact ⟨hr, by simp [mainModel, hr]⟩

/-- Claim C2, witness: a child exit with code 3 at the first poll. -/
theorem c2_child_exit_propagates_witness :
    runWithReloader [] [[obsExit3]] = ([Action.spawn], some 3) ∧
    mainModel false ⟨true, false, some "m:run"⟩ [] [[obsExit3]] =
      .supervised [Action.spawn] (some 3) :=
  c2_child_exit_propagates [] [obsExit3] [] 3 [] (some "m:run") (by decide)

/-- Claim C6: when a polling iteration finds the fresh snapshot unequal
to the baseline (child alive, no interrupt), the supervisor performs
exactly terminate → bounded grace wait → force-kill only on timeout,
continues with the fresh snapshot as the new baseline, and the next
action is spawning a new child. -/
theorem c6_restart_sequence (b : List (String × Int)) (o : Obs)
    (rest : List Obs) (gens : List (List Obs))
    (h1 : o.poll = none) (h2 : o.interrupt = false)
    (h3 : dictEq o.snap b = false) :
    runWithReloader b ((o :: rest) :: gens) =
      (Action.spawn :: (terminateSeq o.gracefulExit ++ (runWithReloader o.snap gens).1),
       (runWithReloader o.snap gens).2) ∧
    terminateSeq o.gracefulExit =
      (if o.gracefulExit then [Action.terminate, Action.waitGraceOk]
       else [Action.terminate, Action.waitGraceTimeout, Action.kill]) ∧
    (∃ tl, (runWithReloader o.snap gens).1 = Action.spawn :: tl) := by
  have hin : innerLoop b (o :: rest) =
      (terminateSeq o.gracefulExit, .changed o.snap) := by
    simp [innerLoop, h1, h2, h3]
  exact ⟨by simp [runWithReloader, hin], rfl, runWithReloader_head o.snap gens⟩

/-- Claim C6, witness: a hard (grace-period-expiring) restart. -/
theorem c6_restart_sequence_witness :
    runWithReloader [] [[obsChangeHard]] =
      (Action.spawn ::
        (terminateSeq obsChangeHard.gracefulExit ++
          (runWithReloader obsChangeHard.snap []).1),
       (runWithReloader obsChangeHard.snap []).2) ∧
    terminateSeq obsChangeHard.gracefulExit =
      (if obsChangeHard.gracefulExit then [Action.terminate, Action.waitGraceOk]
       else [Action.terminate, Action.waitGraceTimeout, Action.kill]) ∧
    (∃ tl, (runWithReloader obsChangeHard.snap []).1 = Action.spawn :: tl) :=
  c6_restart_sequence [] obsChangeHard [] [] (by decide) (by decide) (by decide)

/-- Claim C8: an interrupt delivered during the sleep makes the
supervisor run the graceful-then-forced termination sequence, spawn
nothing further, and return exit code 0, which `main` propagates. -/
theorem c8_interrupt_graceful_exit (b : List (String × Int)) (g : List Obs)
    (rest : List (List Obs)) (as : List Action) (app : Option String)
    (h : innerLoop b g = (as, .interrupted)) :
    runWithReloader b (g :: rest) = (Action.spawn :: as, some 0) ∧
    (as = [Action.terminate, Action.waitGraceOk] ∨
      as = [Action.terminate, Action.waitGraceTimeout, Action.kill]) ∧
    Action.spawn ∉ as ∧
    mainModel false ⟨true, false, app⟩ b (g :: rest) =
      .supervised (Action.spawn :: as) (some 0) := by
  have has : (as = [Action.terminate, Action.waitGraceOk] ∨
      as = [Action.terminate, Action.waitGraceTimeout, Action.kill]) := by
    obtain ⟨o, ho, rfl⟩ : ∃ o, o ∈ g ∧ as = terminateSeq o.gracefulExit := by
      rcases innerLoop_cases b g with ⟨m, h'⟩ | ⟨o, ho, h'⟩ | ⟨o, ho, h'⟩ | h' <;>
        rw [h'] at h <;> cases h
      exact ⟨o, ho, rfl⟩
    cases hg : o.gracefulExit <;> simp [terminateSeq, hg]
  have hns : Action.spawn ∉ as := by
    rcases has with rfl | rfl <;> decide
  have hr : runWithReloader b (g :: rest) = (Action.spawn :: as, some 0) := by
    simp [runWithReloader, h]
  exact ⟨hr, has, hns, by simp [mainModel, hr]⟩

/-- Claim C8, witness: an interrupt in the first iteration, child
stopping within the grace period. -/
theorem c8_interrupt_graceful_exit_witness :
    runWithReloader [] [[obsInterrupt]] =
      (Action.spawn :: [Action.terminate, Action.waitGraceOk], some 0) ∧
    ([Action.terminate, Action.waitGraceOk] =
        [Action.terminate, Action.waitGraceOk] ∨
      [Action.terminate, Action.waitGraceOk] =
        [Action.terminate, Action.waitGraceTimeout, Action.kill]) ∧
    Action.spawn ∉ [Action.terminate, Action.waitGraceOk] ∧
    mainModel false ⟨true, false, some "m:run"⟩ [] [[obsInterrupt]] =
      .supervised (Action.spawn :: [Action.terminate, Action.waitGraceOk]) (some 0) :=
  c8_interrupt_graceful_exit [] [obsInterrupt] [] [Action.terminate, Action.waitGraceOk]
    (some "m:run") (by decide)

/-- A termination sequence contains a `terminate`, so scanning past it
always re-arms the terminate flag. -/
theorem termScan_terminateSeq (x : Bool) (l : List Action) (r : Bool) :
    termScan (terminateSeq x ++ l) r = termScan l true := by
  cases x <;> simp [terminateSeq, termScan]

/-- Every respawn the reloader performs is preceded, since the previous
spawn, by a `terminate` request to the old child. -/
theorem termScan_run (gens : List (List Obs)) :
    ∀ b, termScan (runWithReloader b gens).1 true = true := by
  induction gens with
  | nil => intro b; simp [runWithReloader, termScan]
  | cons g rest ih =>
    intro b
    rcases innerLoop_cases b g with ⟨n, h⟩ | ⟨o, ho, h⟩ | ⟨o, ho, h⟩ | h
    · simp [runWithReloader, h, termScan]
    · cases hg : o.gracefulExit <;>
        simp [runWithReloader, h, hg, terminateSeq, termScan]
    · have heq : (runWithReloader b (g :: rest)).1 =
          Action.spawn :: (terminateSeq o.gracefulExit ++ (runWithReloader o.snap rest).1) := by
        simp [runWithReloader, h]
      rw [heq]
      have h1 : termScan
          (Action.spawn :: (terminateSeq o.gracefulExit ++ (runWithReloader o.snap rest).1))
          true =
          termScan (terminateSeq o.gracefulExit ++ (runWithReloader o.snap rest).1) false := by
        simp [termScan]
      rw [h1, termScan_terminateSeq]
      exact ih o.snap
    · simp [runWithReloader, h, termScan]

/-- When every grace wait completes in time, every respawn is preceded by
an observed termination of the old child. -/
theorem reapScan_run (gens : List (List Obs)) :
    ∀ b, (∀ g ∈ gens, ∀ o ∈ g, o.gracefulExit = true) →
      reapScan (runWithReloader b gens).1 true = true := by
  induction gens with
  | nil => intro b _; simp [runWithReloader, reapScan]
  | cons g rest ih =>
    intro b hg
    rcases innerLoop_cases b g with ⟨n, h⟩ | ⟨o, ho, h⟩ | ⟨o, ho, h⟩ | h
    · simp [runWithReloader, h, reapScan]
    · have hgo : o.gracefulExit = true := hg g (List.mem_cons_self _ _) o ho
      simp [runWithReloader, h, hgo, terminateSeq, reapScan]
    · have hgo : o.gracefulExit = true := hg g (List.mem_cons_self _ _) o ho
      have heq : (runWithReloader b (g :: rest)).1 =
          Action.spawn :: (terminateSeq o.gracefulExit ++ (runWithReloader o.snap rest).1) := by
        simp [runWithReloader, h]
      rw [heq, hgo]
      have h1 : reapScan
          (Action.spawn :: (terminateSeq true ++ (runWithReloader o.snap rest).1)) true =
          reapScan (terminateSeq true ++ (runWithReloader o.snap rest).1) false := by
        simp [reapScan]
      have h2 : ∀ (l : List Action) (r : Bool),
          reapScan (Action.terminate :: Action.waitGraceOk :: l) r = reapScan l true :=
        fun l r => rfl
      rw [h1, show terminateSeq true = [Action.terminate, Action.waitGraceOk] from rfl,
        List.cons_append, List.cons_append, List.nil_append, h2]
      exact ih o.snap (fun g' hg' => hg g' (List.mem_cons_of_mem _ hg'))
    · simp [runWithReloader, h, reapScan]

/-- Claim C7, counterexample: a restart in which the grace period expires.
The action trace is spawn, terminate, grace-timeout, kill, spawn — the
force-killed child's termination is never awaited (no wait after `kill`)
before the new child is spawned, so the old child is not fully reaped. -/
theorem c7_reap_counterexample :
    runWithReloader [] [[obsChangeHard], []] =
      ([Action.spawn, Action.terminate, Action.waitGraceTimeout, Action.kill,
        Action.spawn], none) ∧
    reapedBeforeEachRespawn (runWithReloader [] [[obsChangeHard], []]).1 = false := by
  decide

/-- Claim C7, amended: the supervisor owns at most one child handle at a
time and every respawn is preceded by a terminate request to the old
child; the old child's termination is observed before the new spawn
whenever the grace wait completes in time, but on the force-kill path
`kill` is issued with no subsequent wait, so termination is not observed
there. -/
theorem c7_reap_amended :
    (∀ (b : List (String × Int)) (gens : List (List Obs)),
      terminatedBeforeEachRespawn (runWithReloader b gens).1 = true) ∧
    (∀ (b : List (String × Int)) (gens : List (List Obs)),
      (∀ g ∈ gens, ∀ o ∈ g, o.gracefulExit = true) →
      reapedBeforeEachRespawn (runWithReloader b gens).1 = true) :=
  ⟨fun b gens => termScan_run gens b, fun b gens hg => reapScan_run gens b hg⟩

/-- Claim C7, amended, witness: the hard-restart run still terminates
before respawning; an all-graceful run reaps before respawning. -/
theorem c7_reap_amended_witness :
    terminatedBeforeEachRespawn (runWithReloader [] [[obsChangeHard], []]).1 = true ∧
    reapedBeforeEachRespawn (runWithReloader [] [[obsChangeSoft], []]).1 = true :=
  ⟨c7_reap_amended.1 [] [[obsChangeHard], []],
   c7_reap_amended.2 [] [[obsChangeSoft], []] (by decide)⟩

end Anacostia
